import Mathlib

/-!
Verification development for the inline-text layout module (`src/text.ts`) of
the satori fork under study: word measurement, greedy line breaking with
break-word fallback, min-width estimation, and the position-resolver/painter
(alignment, justification, ellipsis truncation, kerning-preserving merge).

Numbers are modelled as rationals (`ℚ`).  The external font engine, the
external locale segmenter and the word-separator table of the external
`utils` module are modelled as parameters / spec-modelled constants, because
only `src/text.ts` is part of the sources under verification.  JavaScript
quirks that the source actually exercises (indexing a class instance with
`word[0]`, string-coercing an object with `buffer + str`) are modelled
explicitly by small helper functions, each documented at its definition.
-/

namespace Satori

/-- Style record carried by a text run: `InlineTextStyle` of the source has a
single `color` field, and runs store a `Partial` of it, so the colour itself
is optional. -/
structure InlineTextStyle where
  color : Option String
deriving DecidableEq

/-- A styled word token, mirroring `class InlineText` of `src/text.ts`
(`content: string`, `style?: Partial<InlineTextStyle>`). -/
structure InlineText where
  content : String
  style : Option InlineTextStyle
deriving DecidableEq

/-- Function `areStylesEqual` from the bottom of `src/text.ts`: both styles absent means
equal, exactly one absent means unequal, otherwise compare the `color` fields
(JavaScript `===` on two possibly-absent strings). -/
def areStylesEqual (a b : Option InlineTextStyle) : Bool :=
  match a, b with
  | none, none => true
  | none, some _ => false
  | some _, none => false
  | some x, some y => x.color == y.color

/-- JavaScript string coercion of an `InlineText` instance.  The class defines
no `toString`, so `String(word)`, and any `+` that concatenates the object
with a string, yields the literal text `[object Object]`.  The source does
this at `wordBuffer + word.content` (line 583) and `subset + char`
(line 537). -/
def jsToString (_w : InlineText) : String := "[object Object]"

/-- JavaScript `word[0]` where `word` is an `InlineText` instance: the class
has no numeric index property, so the access yields `undefined`, modelled as
`none`.  The source evaluates this at lines 201, 288 and 318. -/
def inlineTextIndexZero (_w : InlineText) : Option String := none

/-- JavaScript `array.includes(x)` over an array of strings, where `x` may be
`undefined` (`none`): `undefined` is never an element of a string array. -/
def jsIncludes (l : List String) : Option String → Bool
  | none => false
  | some s => l.contains s

/-- JavaScript `s[0]`: the first character of a string as a one-character
string, or `undefined` (`none`) for the empty string. -/
def jsStringAt0 (s : String) : Option String :=
  s.data.head?.map (fun c => String.mk [c])

/-- JavaScript `hay.indexOf(x)` where `x` may be `undefined`: `undefined` is
coerced to the string `undefined` before the substring search; the result is
the first match position, or `-1` when absent. -/
def jsStringIndexOf (hay : String) (x : Option String) : Int :=
  let needle := x.getD ("undefined")
  match (List.range (hay.length + 1)).find? (fun k => ((hay.drop k).take needle.length) == needle) with
  | some k => (k : Int)
  | none => -1

/-- Modelled from the spec: the word-separator table exported by the external
`utils` module (not part of `src/`); per the spec a separator is a whitespace
character that may collapse or provide a wrap opportunity. -/
def wordSeparators : List String := [" ", "\t", "\n", "\r", "\u00A0"]

/-- The closing-punctuation set of line 318 of the source, used to decide
whether a token may start a new line. -/
def closingPunctuation : String := ",.!?:-@)>]\x7d%#"

/-- The font-engine capability consumed by the layout code (external to
`src/`): deterministic width measurement, glyph height and baseline queries.
Widths are modelled as rationals. -/
structure Engine where
  measure : String → ℚ
  height : String → ℚ
  baseline : String → ℚ

/-- Function `measureWithCache` of lines 176-188: sums the engine-measured widths of
the given segments.  The `wordWidthCache` of the source only avoids repeated
engine queries for equal content; since the engine is deterministic and is
not replaced after the cache is created, the cache is observationally
transparent and is not modelled. -/
def measureTotal (eng : Engine) (segments : List String) : ℚ :=
  (segments.map eng.measure).sum

/-- The `white-space` modes the source distinguishes. -/
inductive WhiteSpace where
  | normal | pre | preWrap | preLine | nowrap
deriving DecidableEq

/-- The `text-align` values the painter distinguishes (lines 503-516);
`start` and other values fall through to the default arm. -/
inductive TextAlign where
  | left | right | center | justify | start | endSide
deriving DecidableEq

/-- The `text-overflow` values the painter distinguishes (line 525). -/
inductive TextOverflow where
  | clip | ellipsis
deriving DecidableEq

/-- Lines 253-255: whiteSpace is one of pre, pre-wrap, pre-line. -/
def shouldKeepLinebreak (ws : WhiteSpace) : Bool :=
  match ws with
  | .pre | .preWrap | .preLine => true
  | _ => false

/-- Lines 256-258: whiteSpace is neither pre nor pre-wrap. -/
def shouldCollapseWhitespace (ws : WhiteSpace) : Bool :=
  match ws with
  | .pre | .preWrap => false
  | _ => true

/-- Styling/context inputs of one layout invocation that the measurer and the
min-width scan read.  `hasImage` models `graphemeImages &&
graphemeImages[word.content]` (truthiness of a configured image entry; an
absent `graphemeImages` object gives the constantly-false predicate).
`segmentG` models the external locale segmenter at grapheme granularity. -/
structure Config where
  whiteSpace : WhiteSpace
  isBreakWord : Bool
  fontSize : ℚ
  hasImage : String → Bool
  segmentG : String → List String

/-- Per-word layout record of lines 165-171 (`wordPositionInLayout` entry). -/
structure WordPosition where
  x : ℚ
  y : ℚ
  width : ℚ
  line : Nat
  lineIndex : Int
deriving DecidableEq

/-- Accumulator state of one `setMeasureFunc` callback invocation
(lines 261-272 plus the arrays the callback writes).  `lineWidths` and
`lineSegmentNumber` are the per-call arrays the callback resets on entry;
`newBaselines` collects the values the call pushes onto the outer `baselines`
array (which the source never resets: lines 271-272 reset only `lineWidths`
and `lineSegmentNumber`); `posWrites` collects the `wordPositionInLayout[i]`
assignments in order (the loop index is strictly increasing, so applying them
at the end is equivalent to applying them as they happen). -/
structure MeasureAcc where
  lines : Nat
  remainingSpace : String
  remainingSpaceWidth : ℚ
  currentWidth : ℚ
  maxWidth : ℚ
  lineIndex : Int
  height : ℚ
  currentLineHeight : ℚ
  currentBaselineOffset : ℚ
  lineWidths : List ℚ
  lineSegmentNumber : List Int
  newBaselines : List ℚ
  posWrites : List (Nat × Option WordPosition)
deriving DecidableEq

/-- JavaScript `lineSegmentNumber[lineSegmentNumber.length - 1]++`
(line 383). -/
def bumpLast : List Int → List Int
  | [] => []
  | [n] => [n + 1]
  | n :: rest => n :: bumpLast rest

/-- Outcome of one iteration of the measurement loop of lines 277-403. -/
inductive StepOut where
  | done
  | next (words : List InlineText) (i : Nat) (acc : MeasureAcc)

/-- One iteration of the for loop of lines 277-403 of the measurement
callback, at index `i` over the (growable) word list.  Notes on the
JavaScript semantics made explicit here:
* line 288 tests `wordSeparators.includes(word[0])` where `word` is an
  `InlineText` instance, so the tested value is `undefined` and the
  whitespace-collapsing branch never fires (`jsIncludes l none = false`);
* line 318 tests `closingPunctuation.indexOf(word[0]) < 0`, again with
  `word[0] = undefined`, which is string-coerced to `undefined` and is not
  found, so the test is always true;
* the `continue` of line 352 (break-word splice) skips the position write,
  and the following `i++` of the for header resumes at the index after the
  inserted empty placeholder. -/
def measureStep (eng : Engine) (cfg : Config) (width : ℚ)
    (words : List InlineText) (i : Nat) (acc : MeasureAcc) : StepOut :=
  match words[i]? with
  | none => .done
  | some word =>
    let forceBreak := shouldKeepLinebreak cfg.whiteSpace && word.content == "\n"
    if shouldCollapseWhitespace cfg.whiteSpace &&
        jsIncludes wordSeparators (inlineTextIndexZero word) && !forceBreak then
      -- lines 283-297 (dead in practice, see the note above)
      let remainingSpace := if acc.remainingSpace == "" then (" ") else acc.remainingSpace
      .next words (i + 1)
        { acc with
          remainingSpace := remainingSpace
          remainingSpaceWidth := measureTotal eng [remainingSpace]
          posWrites := acc.posWrites ++ [(i, none)] }
    else
      -- lines 299-303
      let w : ℚ :=
        if forceBreak then 0
        else if cfg.hasImage word.content then cfg.fontSize
        else measureTotal eng [word.content]
      -- lines 307-309
      let acc :=
        if forceBreak && decide (acc.currentLineHeight = 0) then
          { acc with currentLineHeight := eng.height word.content }
        else acc
      -- lines 311-315
      let acc :=
        if decide (acc.currentWidth = 0) then
          { acc with remainingSpace := "", remainingSpaceWidth := 0 }
        else acc
      -- lines 317-319
      let allowedToPutAtBeginning :=
        decide (acc.remainingSpaceWidth ≠ 0) ||
          decide (jsStringIndexOf closingPunctuation (inlineTextIndexZero word) < 0)
      let allowedToJustify :=
        decide (acc.currentWidth = 0) || decide (acc.remainingSpaceWidth ≠ 0)
      -- lines 321-326
      let willWrap :=
        decide (i ≠ 0) && allowedToPutAtBeginning &&
          decide (acc.currentWidth + acc.remainingSpaceWidth + w > width) &&
          decide (cfg.whiteSpace ≠ .nowrap) && decide (cfg.whiteSpace ≠ .pre)
      -- lines 332-333
      let needToBreakWord :=
        cfg.isBreakWord && decide (w > width) &&
          (decide (acc.currentWidth = 0) || willWrap || forceBreak)
      if needToBreakWord then
        -- lines 335-353: splice the word into an empty placeholder plus its
        -- graphemes, flush a non-empty current line, and continue
        let chars := "" :: cfg.segmentG word.content
        let words' := words.take i ++ chars.map (fun c => InlineText.mk c word.style) ++ words.drop (i + 1)
        let acc :=
          if decide (acc.currentWidth > 0) then
            { acc with
              lineWidths := acc.lineWidths ++ [acc.currentWidth]
              newBaselines := acc.newBaselines ++ [acc.currentBaselineOffset]
              lines := acc.lines + 1
              height := acc.height + acc.currentLineHeight
              currentWidth := 0
              currentLineHeight := 0
              currentBaselineOffset := 0
              lineSegmentNumber := acc.lineSegmentNumber ++ [1]
              lineIndex := -1 }
          else acc
        .next words' (i + 1) acc
      else
        let acc :=
          if forceBreak || willWrap then
            -- lines 355-372
            { acc with
              lineWidths := acc.lineWidths ++ [acc.currentWidth]
              newBaselines := acc.newBaselines ++ [acc.currentBaselineOffset]
              lines := acc.lines + 1
              height := acc.height + acc.currentLineHeight
              currentWidth := w
              currentLineHeight := if decide (w ≠ 0) then eng.height word.content else 0
              currentBaselineOffset := if decide (w ≠ 0) then eng.baseline word.content else 0
              lineSegmentNumber := acc.lineSegmentNumber ++ [1]
              lineIndex := -1
              maxWidth := if !forceBreak then max acc.maxWidth width else acc.maxWidth }
          else
            -- lines 373-385
            let glyphHeight := eng.height word.content
            { acc with
              currentWidth := acc.currentWidth + acc.remainingSpaceWidth + w
              currentLineHeight :=
                if decide (glyphHeight > acc.currentLineHeight) then glyphHeight
                else acc.currentLineHeight
              currentBaselineOffset :=
                if decide (glyphHeight > acc.currentLineHeight) then eng.baseline word.content
                else acc.currentBaselineOffset
              lineSegmentNumber :=
                if allowedToJustify then bumpLast acc.lineSegmentNumber
                else acc.lineSegmentNumber }
        -- lines 387-401
        let acc := { acc with remainingSpace := "", remainingSpaceWidth := 0 }
        let acc := if allowedToJustify then { acc with lineIndex := acc.lineIndex + 1 } else acc
        let acc := { acc with maxWidth := max acc.maxWidth acc.currentWidth }
        .next words (i + 1)
          { acc with
            posWrites := acc.posWrites ++
              [(i, some { x := acc.currentWidth - w, y := acc.height, width := w,
                          line := acc.lines, lineIndex := acc.lineIndex })] }

/-- Sequential JavaScript array assignments `wordPositionInLayout[i] = v`,
applied to the array modelled as an index-to-entry function (`none` covers
both `null` and a hole, which the painter treats alike at line 479). -/
def applyWrites (pos : Nat → Option WordPosition) :
    List (Nat × Option WordPosition) → (Nat → Option WordPosition)
  | [] => pos
  | (i, v) :: rest => applyWrites (fun j => if j = i then v else pos j) rest

/-- The mutable arrays of lines 160-175 that live outside the measurement
callback and persist between its invocations, together with the growable
word list. -/
structure TextState where
  words : List InlineText
  lineWidths : List ℚ
  baselines : List ℚ
  lineSegmentNumber : List Int
  positions : Nat → Option WordPosition

/-- Returned record of the measurement callback, line 412. -/
structure MeasureResult where
  width : ℚ
  height : ℚ
deriving DecidableEq

/-- Initial values of the per-call accumulators, lines 261-272. -/
def initialMeasureAcc : MeasureAcc :=
  { lines := 0
    remainingSpace := ""
    remainingSpaceWidth := 0
    currentWidth := 0
    maxWidth := 0
    lineIndex := -1
    height := 0
    currentLineHeight := 0
    currentBaselineOffset := 0
    lineWidths := []
    lineSegmentNumber := [0]
    newBaselines := []
    posWrites := [] }

/-- The loop of lines 277-403, with explicit fuel: the word list grows during
the scan (break-word splice), so the iteration count is not bounded by the
input; `none` means the fuel was exhausted, i.e. the modelled run would have
performed more than `fuel` iterations. -/
def measureLoop (eng : Engine) (cfg : Config) (width : ℚ) :
    Nat → List InlineText → Nat → MeasureAcc → Option (List InlineText × MeasureAcc)
  | 0, _, _, _ => none
  | fuel + 1, words, i, acc =>
    match measureStep eng cfg width words i acc with
    | .done => some (words, acc)
    | .next words' i' acc' => measureLoop eng cfg width fuel words' i' acc'

/-- Lines 404-409: flush the final non-empty line. -/
def finalFlush (acc : MeasureAcc) : MeasureAcc :=
  if decide (acc.currentWidth ≠ 0) then
    { acc with
      lines := acc.lines + 1
      lineWidths := acc.lineWidths ++ [acc.currentWidth]
      newBaselines := acc.newBaselines ++ [acc.currentBaselineOffset]
      height := acc.height + acc.currentLineHeight }
  else acc

/-- The measurement callback body as a function of the word list and the
candidate width only (lines 260-413): the per-call accumulators are
reinitialised, the loop runs, and the final line is flushed.  The returned
`MeasureResult` is `{ width: maxWidth, height }` of line 412. -/
def measureRun (eng : Engine) (cfg : Config) (fuel : Nat)
    (words : List InlineText) (width : ℚ) : Option (List InlineText × MeasureAcc) :=
  (measureLoop eng cfg width fuel words 0 initialMeasureAcc).map
    (fun r => (r.1, finalFlush r.2))

/-- One invocation of the measurement callback against the shared outer
state: `lineWidths` and `lineSegmentNumber` are overwritten (lines 271-272),
the pushed baselines are appended to the never-reset outer `baselines` array,
and the position writes land on top of the previous `wordPositionInLayout`
entries. -/
def measureCall (eng : Engine) (cfg : Config) (fuel : Nat)
    (st : TextState) (width : ℚ) : Option (TextState × MeasureResult) :=
  (measureRun eng cfg fuel st.words width).map (fun r =>
    ({ words := r.1
       lineWidths := r.2.lineWidths
       baselines := st.baselines ++ r.2.newBaselines
       lineSegmentNumber := r.2.lineSegmentNumber
       positions := applyWrites st.positions r.2.posWrites },
     { width := r.2.maxWidth, height := r.2.height }))

/-- Accumulator of the single-pass min-width scan, lines 192-194. -/
structure MinWidthAcc where
  minWidth : ℚ
  remainingSegment : List String
  extraWidth : ℚ
deriving DecidableEq

/-- One iteration of the min-width scan of lines 195-229.  In the
`white-space: pre` arm (line 201) the source evaluates `word[0].content`;
`word[0]` on an `InlineText` instance is `undefined`, so the property access
throws a `TypeError` — modelled as `none`, which aborts the whole scan.
Under `nowrap` neither arm sets `breakSegment`, so the `extraWidth`
accumulation of lines 218-220 is unreachable; it is still translated. -/
def minWidthStep (eng : Engine) (cfg : Config) (acc : MinWidthAcc)
    (word : InlineText) : Option MinWidthAcc :=
  let isImage := cfg.hasImage word.content
  if cfg.whiteSpace = WhiteSpace.pre then
    none
  else
    let breakSegment :=
      if cfg.whiteSpace ≠ WhiteSpace.nowrap then
        isImage || jsIncludes wordSeparators (jsStringAt0 word.content)
      else false
    if !breakSegment then
      if !(jsIncludes wordSeparators (jsStringAt0 word.content)) ||
          acc.remainingSegment.isEmpty then
        some { acc with
          remainingSegment :=
            acc.remainingSegment ++ [if word.content == "\n" then (" ") else word.content] }
      else some acc
    else
      if cfg.whiteSpace = WhiteSpace.nowrap then
        some { acc with
          extraWidth := acc.extraWidth + measureTotal eng acc.remainingSegment + cfg.fontSize
          remainingSegment := [] }
      else
        let m := max acc.minWidth (measureTotal eng acc.remainingSegment)
        let m := if isImage then max m cfg.fontSize else m
        some { acc with minWidth := m, remainingSegment := [] }

/-- The min-width estimation of lines 192-230: scan all words, then take the
final maximum with the remaining segment plus the nowrap extra width.
The result is `none` exactly when the scan throws (see `minWidthStep`). -/
def computeMinWidth (eng : Engine) (cfg : Config) (words : List InlineText) : Option ℚ :=
  (words.foldlM (minWidthStep eng cfg) ⟨0, [], 0⟩).map
    (fun acc => max acc.minWidth (measureTotal eng acc.remainingSegment + acc.extraWidth))

/-- A Yoga length value as read back from the node: `unit` is the Yoga unit
enum (1 is the point unit) and `value` is the numeric value, with `none`
modelling `NaN` (absent constraint; every ordered comparison against `NaN`
is false). -/
structure YogaValue where
  unit : Nat
  value : Option ℚ
deriving DecidableEq

/-- The guard of lines 234-238 deciding whether the computed minimum width is
written to the parent: the explicit width must be absent (`NaN`), and the
inherited min-width must be absent or be a point-unit value strictly greater
than the computed one (`currentMinWidth.value > minWidth`, false when the
value is `NaN`). -/
def shouldSetMinWidth (curWidth curMin : YogaValue) (minWidth : ℚ) : Bool :=
  curWidth.value.isNone &&
    (curMin.value.isNone ||
      (decide (curMin.unit = 1) &&
        match curMin.value with
        | some v => decide (minWidth < v)
        | none => false))

/-- Lines 234-248 as a whole: the value written by `parent.setMinWidth`, or
`none` when the guard rejects and the parent is left unchanged.  Inside the
guarded region the value is clamped by a point-unit max-width (lines
240-246); a percent max-width leaves the value unclamped. -/
def appliedMinWidth (curWidth curMin curMax : YogaValue) (minWidth : ℚ) : Option ℚ :=
  if shouldSetMinWidth curWidth curMin minWidth then
    some (match curMax.value with
      | some mv => if curMax.unit = 1 then min minWidth mv else minWidth
      | none => minWidth)
  else none

/-- The apply-condition exactly as the spec words it, for comparison with the
code: the computed minWidth is applied only if no explicit width is set and
(no inherited min-width exists, or the inherited min-width is a literal
(point-unit) length smaller than the computed value). -/
def specMinWidthApplyCond (curWidth curMin : YogaValue) (minWidth : ℚ) : Prop :=
  curWidth.value = none ∧
    (curMin.value = none ∨
      (curMin.unit = 1 ∧ ∃ v, curMin.value = some v ∧ v < minWidth))

/-- Painter-phase configuration: committed container geometry and the style
switches the position resolver reads.  `containerWidth` is the committed
width of the text container node; `innerWidth` is
`parentContainerInnerWidth`, the content-box width of the parent (lines
429-434).  `hasImage` models a present `graphemeImages` object (the painter
dereferences it unguardedly at line 572). -/
structure PaintConfig where
  textAlign : TextAlign
  textOverflow : TextOverflow
  embedFont : Bool
  hasImage : String → Bool
  segmentG : String → List String
  containerWidth : ℚ
  innerWidth : ℚ

/-- Per-token alignment adjustment of lines 496-516: returns the adjusted
left offset and the `extendedWidth` flag.  Alignment only applies when the
last measurement produced more than one line (line 499); justification skips
the last line (line 509); the justify gutter is zero when the line has at
most one segment (line 511). -/
def alignShift (align : TextAlign) (containerWidth : ℚ) (lineWidths : List ℚ)
    (lineSegmentNumber : List Int) (layout : WordPosition) : ℚ × Bool :=
  if 1 < lineWidths.length then
    let remainingWidth := containerWidth - lineWidths.getD layout.line 0
    match align with
    | .right => (layout.x + remainingWidth, false)
    | .endSide => (layout.x + remainingWidth, false)
    | .center => (layout.x + remainingWidth / 2, false)
    | .justify =>
      if layout.line < lineWidths.length - 1 then
        let segments := lineSegmentNumber.getD layout.line 0
        let gutter := if 1 < segments then remainingWidth / ((segments : ℚ) - 1) else 0
        (layout.x + gutter * (layout.lineIndex : ℚ), true)
      else (layout.x, false)
    | _ => (layout.x, false)
  else (layout.x, false)

/-- The grapheme scan of the ellipsis truncation, lines 534-550: `chars` are
the truncated token's grapheme segments wrapped back into `InlineText`
objects (lines 531-533), and the loop evaluates `subset + char`, which
string-coerces each `InlineText` object (see `jsToString`).  The first
grapheme is always accepted (the `subset &&` guard of line 543); afterwards
the scan stops as soon as the measured prefix plus the ellipsis glyph
exceeds the inner width.  Returns the final `subset` and `resolvedWidth`. -/
def ellipsisScan (eng : Engine) (innerWidth ellipsisWidth layoutX : ℚ) :
    List InlineText → String → ℚ → String × ℚ
  | [], subset, resolved => (subset, resolved)
  | ch :: rest, subset, resolved =>
    let w := layoutX + eng.measure (subset ++ jsToString ch)
    if subset ≠ "" ∧ innerWidth < w + ellipsisWidth then (subset, resolved)
    else ellipsisScan eng innerWidth ellipsisWidth layoutX rest (subset ++ jsToString ch) w

/-- Ellipsis truncation of one token, lines 531-553: the token content is
replaced by the scanned prefix plus the ellipsis glyph, and the returned
width becomes the recorded decoration width of the line. -/
def ellipsisTruncate (eng : Engine) (segmentG : String → List String)
    (innerWidth ellipsisWidth layoutX : ℚ) (word : InlineText) : InlineText × ℚ :=
  let chars := (segmentG word.content).map (fun seg => InlineText.mk seg word.style)
  let r := ellipsisScan eng innerWidth ellipsisWidth layoutX chars ("") 0
  (⟨r.1 ++ "…", word.style⟩, r.2)

/-- Requests and mutable bookkeeping of the painter loop of lines 467-688.
`svgCalls` records the shaped-outline requests `engine.getSVG(content, ...)`
of the embedded-font path as (content, finalized left offset) pairs
(lines 595-601); `textEmits` records the tokens sent through the per-glyph
text-element builder as (content, left offset) pairs (lines 662-684).
Decoration, shadow, debug and markup-string assembly produce only output
text and are not modelled. -/
structure PaintState where
  skippedLine : Int
  wordBuffer : Option InlineText
  bufferedOffset : ℚ
  decorationLines : List (Nat × (ℚ × ℚ))
  svgCalls : List (String × ℚ)
  textEmits : List (String × ℚ)
deriving DecidableEq

/-- JavaScript `decorationLines[line][1] = resolvedWidth` (line 553). -/
def setDecorationWidth (dl : List (Nat × (ℚ × ℚ))) (line : Nat) (w : ℚ) :
    List (Nat × (ℚ × ℚ)) :=
  dl.map (fun e => if e.1 = line then (e.1, (e.2.1, w)) else e)

/-- The loop body of lines 477-688, one call per word index.  Control flow in
source order: skip tokens without a layout record (line 479), skip tokens on
the skipped (truncated) line (lines 492-494), alignment (lines 496-516),
decoration-line creation (lines 518-523), ellipsis truncation (lines
525-556), then image emission, the embedded-font merge/flush, or plain
text-element emission (lines 563-687). -/
def painterGo (eng : Engine) (pc : PaintConfig) (words : List InlineText)
    (pos : Nat → Option WordPosition) (lineWidths : List ℚ)
    (lineSegmentNumber : List Int) (ellipsisWidth spaceWidth : ℚ) :
    List Nat → PaintState → PaintState
  | [], st => st
  | i :: rest, st =>
    match pos i with
    | none =>
      painterGo eng pc words pos lineWidths lineSegmentNumber ellipsisWidth spaceWidth rest st
    | some layout =>
      let word := (words[i]?).getD ⟨"", none⟩
      let image := pc.hasImage word.content
      let topOffset := layout.y
      let width := layout.width
      let line := layout.line
      if (line : Int) = st.skippedLine then
        painterGo eng pc words pos lineWidths lineSegmentNumber ellipsisWidth spaceWidth rest st
      else
        let shifted := alignShift pc.textAlign pc.containerWidth lineWidths lineSegmentNumber layout
        let leftOffset := shifted.1
        let extendedWidth := shifted.2
        let st :=
          if (st.decorationLines.lookup line).isNone then
            { st with decorationLines := st.decorationLines ++
                [(line, (leftOffset,
                   if extendedWidth then pc.containerWidth else lineWidths.getD line 0))] }
          else st
        let wst :=
          if pc.textOverflow = TextOverflow.ellipsis ∧
             pc.innerWidth < lineWidths.getD line 0 ∧
             pc.innerWidth < layout.x + width + ellipsisWidth + spaceWidth then
            let t := ellipsisTruncate eng pc.segmentG pc.innerWidth ellipsisWidth layout.x word
            (t.1, { st with skippedLine := (line : Int),
                            decorationLines := setDecorationWidth st.decorationLines line t.2 })
          else (word, st)
        let word := wst.1
        let st := wst.2
        if image then
          painterGo eng pc words pos lineWidths lineSegmentNumber ellipsisWidth spaceWidth rest
            { st with textEmits := st.textEmits ++ [(word.content, leftOffset)] }
        else if pc.embedFont then
          -- lines 569-576: merge condition of the kerning-preserving buffer;
          -- note that line 575 compares styles of `words[i]` and `words[i+1]`
          let canMerge : Bool :=
            !(jsIncludes wordSeparators (some word.content)) &&
              (match words[i+1]?, pos (i+1) with
               | some next, some nextLayout =>
                 !(pc.hasImage next.content) && decide (topOffset = nextLayout.y) &&
                   areStylesEqual ((words[i]?).getD ⟨"", none⟩).style next.style
               | _, _ => false)
          if canMerge then
            -- lines 577-584: `wordBuffer + word.content` string-coerces the
            -- buffered `InlineText` object
            painterGo eng pc words pos lineWidths lineSegmentNumber ellipsisWidth spaceWidth rest
              { st with
                bufferedOffset := if st.wordBuffer.isNone then leftOffset else st.bufferedOffset
                wordBuffer := some (match st.wordBuffer with
                  | none => word
                  | some b => ⟨jsToString b ++ word.content, word.style⟩) }
          else
            -- lines 587-603: flush the buffer through one shaped-outline
            -- request, positioned at the first buffered offset
            let finalizedContent :=
              match st.wordBuffer with
              | none => word.content
              | some b => b.content ++ word.content
            let finalizedLeftOffset :=
              if st.wordBuffer.isNone then leftOffset else st.bufferedOffset
            painterGo eng pc words pos lineWidths lineSegmentNumber ellipsisWidth spaceWidth rest
              { st with
                svgCalls := st.svgCalls ++ [(finalizedContent, finalizedLeftOffset)]
                wordBuffer := none }
        else
          painterGo eng pc words pos lineWidths lineSegmentNumber ellipsisWidth spaceWidth rest
            { st with textEmits := st.textEmits ++ [(word.content, leftOffset)] }

/-- The position-resolver/painter pass of lines 467-688 over the arrays of
the last measurement call: the ellipsis and space glyph widths are measured
once (lines 471-472; zero unless text-overflow is ellipsis), `skippedLine`
starts at -1 and the word buffer empty (lines 470-475), and the loop walks
every word index in order. -/
def paintText (eng : Engine) (pc : PaintConfig) (words : List InlineText)
    (pos : Nat → Option WordPosition) (lineWidths : List ℚ)
    (lineSegmentNumber : List Int) : PaintState :=
  let ellipsisWidth :=
    if pc.textOverflow = TextOverflow.ellipsis then measureTotal eng ["…"] else 0
  let spaceWidth :=
    if pc.textOverflow = TextOverflow.ellipsis then measureTotal eng [" "] else 0
  painterGo eng pc words pos lineWidths lineSegmentNumber ellipsisWidth spaceWidth
    (List.range words.length) ⟨-1, none, 0, [], [], []⟩

/-! ### Concrete fixtures for the evaluation theorems -/

/-- Unit test engine: every string measures 1 wide, 1 tall, baseline 1. -/
def engUnit : Engine := ⟨fun _ => 1, fun _ => 1, fun _ => 1⟩

/-- Two-token test engine: every string is 3 wide; the token `A` is 10 tall
with baseline 1, everything else 5 tall with baseline 2. -/
def engAB : Engine :=
  ⟨fun _ => 3,
   fun t => if t = "A" then 10 else 5,
   fun t => if t = "A" then 1 else 2⟩

/-- Normal-whitespace configuration without break-word, images or
segmentation. -/
def cfgNormal : Config :=
  { whiteSpace := WhiteSpace.normal
    isBreakWord := false
    fontSize := 1
    hasImage := fun _ => false
    segmentG := fun _ => [] }

/-- Configuration with whiteSpace pre (for the min-width scan). -/
def cfgPre : Config :=
  { whiteSpace := WhiteSpace.pre
    isBreakWord := false
    fontSize := 1
    hasImage := fun _ => false
    segmentG := fun _ => [] }

/-- Fresh outer layout state for a given word list: all arrays empty and no
position entries written yet, as at lines 162-171. -/
def freshState (ws : List InlineText) : TextState :=
  ⟨ws, [], [], [], fun _ => none⟩

/-! ### Claim theorems -/

/-- Result accumulator of measuring the words A B at width 10 with `engAB`:
one line of width 6, baseline 1 (the taller token A). -/
theorem c1_first_call_run :
    measureRun engAB cfgNormal 4 [⟨"A", none⟩, ⟨"B", none⟩] 10 =
      some ([⟨"A", none⟩, ⟨"B", none⟩],
        { lines := 1, remainingSpace := "", remainingSpaceWidth := 0, currentWidth := 6,
          maxWidth := 6, lineIndex := 0, height := 10, currentLineHeight := 10,
          currentBaselineOffset := 1, lineWidths := [6], lineSegmentNumber := [1],
          newBaselines := [1],
          posWrites := [(0, some ⟨0, 0, 3, 0, 0⟩), (1, some ⟨3, 0, 3, 0, 0⟩)] }) := by
  simp +decide [measureRun, measureLoop, measureStep, finalFlush,
    initialMeasureAcc, measureTotal, engAB, cfgNormal, shouldKeepLinebreak,
    shouldCollapseWhitespace, jsIncludes, inlineTextIndexZero, jsStringIndexOf,
    closingPunctuation, wordSeparators, bumpLast,
    (show (3:ℚ) + 3 = 6 by norm_num), (show (6:ℚ) - 3 = 3 by norm_num),
    (show (3:ℚ) - 3 = 0 by norm_num), (show (10:ℚ) + 5 = 15 by norm_num),
    (show max (0:ℚ) 3 = 3 by norm_num), (show max (3:ℚ) 6 = 6 by norm_num),
    (show max (3:ℚ) 4 = 4 by norm_num), (show max (4:ℚ) 3 = 4 by norm_num)]

/-- Result accumulator of measuring the same words at width 4: two lines of
width 3 with baselines 1 and 2. -/
theorem c1_second_call_run :
    measureRun engAB cfgNormal 4 [⟨"A", none⟩, ⟨"B", none⟩] 4 =
      some ([⟨"A", none⟩, ⟨"B", none⟩],
        { lines := 2, remainingSpace := "", remainingSpaceWidth := 0, currentWidth := 3,
          maxWidth := 4, lineIndex := -1, height := 15, currentLineHeight := 5,
          currentBaselineOffset := 2, lineWidths := [3, 3], lineSegmentNumber := [1, 1],
          newBaselines := [1, 2],
          posWrites := [(0, some ⟨0, 0, 3, 0, 0⟩), (1, some ⟨0, 10, 3, 1, -1⟩)] }) := by
  simp +decide [measureRun, measureLoop, measureStep, finalFlush,
    initialMeasureAcc, measureTotal, engAB, cfgNormal, shouldKeepLinebreak,
    shouldCollapseWhitespace, jsIncludes, inlineTextIndexZero, jsStringIndexOf,
    closingPunctuation, wordSeparators, bumpLast,
    (show (3:ℚ) + 3 = 6 by norm_num), (show (6:ℚ) - 3 = 3 by norm_num),
    (show (3:ℚ) - 3 = 0 by norm_num), (show (10:ℚ) + 5 = 15 by norm_num),
    (show max (0:ℚ) 3 = 3 by norm_num), (show max (3:ℚ) 6 = 6 by norm_num),
    (show max (3:ℚ) 4 = 4 by norm_num), (show max (4:ℚ) 3 = 4 by norm_num)]

/-- C1: the claim states that every measurement call fully recomputes and
overwrites all line metrics so that no entry written by an earlier call
survives into the arrays the Painter consumes.  The code resets `lineWidths`
and `lineSegmentNumber` on entry (lines 271-272) but never resets
`baselines`, so the entries of earlier calls stay at the front of the array.
Concretely, for the words A B (widths 3) measured first at width 10 (one
line, baseline 1) and then at width 4 (two lines, baselines 1 and 2), the
`baselines` array afterwards is [1, 1, 2] — the Painter then reads
`baselines[1] = 1` (the stale first-call entry) for the second line instead
of 2, the value a single fresh call at width 4 produces. -/
theorem c1_stale_baselines_survive_into_painter_arrays :
    ((measureCall engAB cfgNormal 4 (freshState [⟨"A", none⟩, ⟨"B", none⟩]) 10).bind fun p =>
      (measureCall engAB cfgNormal 4 p.1 4).map fun q => q.1.baselines) = some [1, 1, 2] ∧
    (measureCall engAB cfgNormal 4 (freshState [⟨"A", none⟩, ⟨"B", none⟩]) 4).map
        (fun p => p.1.baselines) = some [1, 2] := by
  constructor <;>
    simp [measureCall, freshState, c1_first_call_run, c1_second_call_run]

/-- C3: the claim states that a token whose first character is a word
separator is merged into a single pending space with a `null` WordPosition
when whitespace collapses.  In the code the guarding test of line 288 is
`wordSeparators.includes(word[0])` on an `InlineText` instance, which tests
`undefined` and is always false, so the branch is dead: measuring the single
word consisting of one space under `white-space: normal` records a real
(non-null) WordPosition of width 1 and the space contributes its full
measured width to the line and the returned width. -/
theorem c3_separator_token_not_collapsed :
    (measureCall engUnit cfgNormal 3 (freshState [⟨" ", none⟩]) 10).map
        (fun p => (p.1.positions 0, p.1.lineWidths, p.2.width)) =
      some (some ⟨0, 0, 1, 0, 0⟩, [1], 1) := by
  simp +decide [measureCall, measureRun, measureLoop, measureStep, finalFlush,
    initialMeasureAcc, measureTotal, engUnit, cfgNormal, freshState, shouldKeepLinebreak,
    shouldCollapseWhitespace, jsIncludes, inlineTextIndexZero, jsStringIndexOf,
    closingPunctuation, wordSeparators, bumpLast, applyWrites]

/-- C4: the claim states that the layout invocation raises no exception on
the nominal path, in particular that the min-width scan completes for every
word sequence when whiteSpace is pre.  At line 201 the pre arm evaluates
`word[0].content`, and `word[0]` on an `InlineText` instance is `undefined`,
so the scan throws a TypeError for any engine as soon as the word list is
non-empty. -/
theorem c4_minwidth_scan_throws_under_pre (eng : Engine) :
    computeMinWidth eng cfgPre [⟨"a", none⟩] = none := by
  simp [computeMinWidth, minWidthStep, cfgPre, List.foldlM]

/-- C5: the claim states that after every measurement call the three
per-line arrays have equal lengths.  Because `baselines` is never reset
(lines 271-272 reset only `lineWidths` and `lineSegmentNumber`), a second
call over the single word a leaves `lineWidths.length = 1`,
`baselines.length = 2` and `lineSegmentNumber.length = 1`. -/
theorem c5_line_metric_arrays_misaligned_after_second_call :
    ((measureCall engUnit cfgNormal 3 (freshState [⟨"a", none⟩]) 10).bind fun p =>
      (measureCall engUnit cfgNormal 3 p.1 10).map fun q =>
        (q.1.lineWidths.length, q.1.baselines.length, q.1.lineSegmentNumber.length)) =
      some (1, 2, 1) := by
  simp +decide [measureCall, measureRun, measureLoop, measureStep, finalFlush,
    initialMeasureAcc, measureTotal, engUnit, cfgNormal, freshState, shouldKeepLinebreak,
    shouldCollapseWhitespace, jsIncludes, inlineTextIndexZero, jsStringIndexOf,
    closingPunctuation, wordSeparators, bumpLast, applyWrites]

/-- C6 counterexample: the claim states that the computed minWidth is
written only when no explicit width is set and either no inherited
min-width exists or the inherited min-width is a literal length smaller
than the computed value.  At the concrete input (width absent, inherited
point-unit min-width 20, computed value 10) the code does write the
min-width (its guard tests `currentMinWidth.value > minWidth`, line 237),
while the spec condition is false (20 is not smaller than 10). -/
theorem c6_minwidth_written_against_spec_condition :
    (appliedMinWidth ⟨0, none⟩ ⟨1, some 20⟩ ⟨0, none⟩ 10).isSome = true ∧
      ¬ specMinWidthApplyCond ⟨0, none⟩ ⟨1, some 20⟩ 10 := by
  constructor
  · simp +decide [appliedMinWidth, shouldSetMinWidth]
  · rintro ⟨-, h | ⟨-, v, hv, hlt⟩⟩
    · exact Option.some_ne_none _ h
    · rw [Option.some_inj] at hv
      rw [← hv] at hlt
      norm_num at hlt

/-- C6 amended: the computed minWidth is written to the parent exactly when
no explicit width is set and either no inherited min-width exists or the
inherited min-width is a literal (point-unit) length strictly larger than
the computed value; in all other cases the parent is left unchanged. -/
theorem c6_minwidth_apply_condition (curWidth curMin curMax : YogaValue) (minWidth : ℚ) :
    (appliedMinWidth curWidth curMin curMax minWidth).isSome = true ↔
      curWidth.value = none ∧
        (curMin.value = none ∨
          (curMin.unit = 1 ∧ ∃ v, curMin.value = some v ∧ minWidth < v)) := by
  rcases curWidth with ⟨wu, _ | wv⟩ <;> rcases curMin with ⟨mu, _ | mv⟩ <;>
    simp [appliedMinWidth, shouldSetMinWidth, Option.isNone] <;>
    by_cases hmu : mu = 1 <;> simp [hmu] <;>
    by_cases hlt : minWidth < mv <;> simp [hlt]

/-- Painter configuration for the kerning-merge scenario: embedded font, no
images, left alignment, no ellipsis, a single line of width 3 inside a
container of width 10. -/
def pcEmbed : PaintConfig :=
  { textAlign := TextAlign.left
    textOverflow := TextOverflow.clip
    embedFont := true
    hasImage := fun _ => false
    segmentG := fun _ => []
    containerWidth := 10
    innerWidth := 10 }

/-- Layout records of three adjacent unit-width tokens on the same line. -/
def posThree : Nat → Option WordPosition := fun i =>
  if i = 0 then some ⟨0, 0, 1, 0, 0⟩
  else if i = 1 then some ⟨1, 0, 1, 0, 0⟩
  else if i = 2 then some ⟨2, 0, 1, 0, 0⟩
  else none

/-- C7: the claim states that a run of adjacent visible, non-separator,
non-image, same-line, same-style tokens yields exactly one shaped-outline
request whose text is the character-for-character concatenation of the
tokens.  For three such tokens a, b, c the code issues exactly one request
at the first buffered offset, but its text is `[object Object]bc` instead of
`abc`: line 583 computes `wordBuffer + word.content`, string-coercing the
buffered `InlineText` object as soon as the run is three or more tokens
long. -/
theorem c7_merged_outline_text_is_object_coerced :
    (paintText engUnit pcEmbed [⟨"a", none⟩, ⟨"b", none⟩, ⟨"c", none⟩]
        posThree [3] [3]).svgCalls = [("[object Object]bc", 0)] := by
  simp +decide [paintText, painterGo, alignShift, posThree, pcEmbed, engUnit,
    jsIncludes, jsToString, areStylesEqual, wordSeparators, measureTotal,
    setDecorationWidth, List.range, List.range.loop]

/-- Measurement table for the ellipsis scenario: the original token abcd is
4 wide, the object-coercion artefact measures 15 (its character count), the
ellipsis and space glyphs 1. -/
def engEll : Engine :=
  ⟨fun t =>
      if t = "[object Object]" then 15
      else if t = "[object Object][object Object]" then 30
      else if t = "…" then 1
      else if t = " " then 1
      else 4,
   fun _ => 1, fun _ => 1⟩

/-- Painter configuration for the ellipsis scenario: text-overflow ellipsis,
no embedded font, container width 10, parent content-box width 2, and a
grapheme segmenter splitting abcd into its four letters. -/
def pcEll : PaintConfig :=
  { textAlign := TextAlign.left
    textOverflow := TextOverflow.ellipsis
    embedFont := false
    hasImage := fun _ => false
    segmentG := fun t => if t = "abcd" then ["a", "b", "c", "d"] else [t]
    containerWidth := 10
    innerWidth := 2 }

/-- Layout record of the single 4-wide token on line 0. -/
def posEll : Nat → Option WordPosition := fun i =>
  if i = 0 then some ⟨0, 0, 4, 0, 0⟩ else none

/-- C10: the claim states that ellipsis truncation keeps at least one
grapheme of the original token before the ellipsis glyph and that the
recorded truncated width does not exceed the content-box width within a
one-glyph tolerance.  In the code the truncation loop of lines 534-550
builds the prefix from `subset + char` where `char` is an `InlineText`
object, so each accepted grapheme contributes the string `[object Object]`:
for the token abcd overflowing a content box of width 2, the emitted
replacement content is `[object Object]…` — containing no grapheme of the
original token — and the recorded truncated width is 15, the measured width
of the coerced prefix. -/
theorem c10_ellipsis_prefix_is_object_coerced :
    (paintText engEll pcEll [⟨"abcd", none⟩] posEll [4] [1]).textEmits =
        [("[object Object]…", 0)] ∧
      (ellipsisTruncate engEll pcEll.segmentG 2 1 0 ⟨"abcd", none⟩).2 = 15 := by
  constructor <;>
    simp +decide [paintText, painterGo, alignShift, posEll, pcEll, engEll,
      ellipsisTruncate, ellipsisScan, jsToString, jsIncludes, areStylesEqual,
      wordSeparators, measureTotal, setDecorationWidth, List.range, List.range.loop,
      (show (15:ℚ) + 1 > 2 by norm_num), (show (30:ℚ) + 1 > 2 by norm_num),
      (show (0:ℚ) + 4 + 1 + 1 > 2 by norm_num), (show (2:ℚ) < 4 + 1 + 1 by norm_num)]

/-- Engine for the break-word divergence scenario: every string measures 2
wide, 1 tall, baseline 1. -/
def engWide : Engine := ⟨fun _ => 2, fun _ => 1, fun _ => 1⟩

/-- Break-word configuration whose grapheme segmenter reports the oversized
token X as a single grapheme. -/
def cfgBreakX : Config :=
  { whiteSpace := WhiteSpace.normal
    isBreakWord := true
    fontSize := 1
    hasImage := fun _ => false
    segmentG := fun _ => ["X"] }

/-- From any state with an empty current line (current width zero, no
pending space), scanning the oversized single-grapheme token X at the end of
any number of already-inserted empty placeholders re-splices it forever:
every fuel bound is exhausted. -/
theorem c2_loop_stuck (fuel : Nat) : ∀ (k : Nat) (acc : MeasureAcc),
    acc.currentWidth = 0 → acc.remainingSpace = "" → acc.remainingSpaceWidth = 0 →
    measureLoop engWide cfgBreakX 1 fuel
      (List.replicate k ⟨"", none⟩ ++ [⟨"X", none⟩]) k acc = none := by
  induction fuel with
  | zero => intro k acc _ _ _; rfl
  | succ f ih =>
    intro k acc h1 h2 h3
    have hget : (List.replicate k (⟨"", none⟩ : InlineText) ++ [⟨"X", none⟩])[k]? =
        some ⟨"X", none⟩ := by
      rw [List.getElem?_append_right (by simp)]
      simp
    have hacc :
        ({ acc with remainingSpace := "", remainingSpaceWidth := 0, currentWidth := (0 : ℚ) } :
          MeasureAcc) = acc := by
      cases acc
      simp_all
    have htake : (List.replicate k (⟨"", none⟩ : InlineText) ++
        [(⟨"X", none⟩ : InlineText)]).take k =
        List.replicate k (⟨"", none⟩ : InlineText) :=
      List.take_left' (by simp)
    have hdrop : (List.replicate k (⟨"", none⟩ : InlineText) ++
        [(⟨"X", none⟩ : InlineText)]).drop (k + 1) = [] := by
      apply List.drop_eq_nil_of_le
      simp
    have hshape : List.replicate k (⟨"", none⟩ : InlineText) ++
        [(⟨"", none⟩ : InlineText), ⟨"X", none⟩] =
        List.replicate (k + 1) (⟨"", none⟩ : InlineText) ++ [(⟨"X", none⟩ : InlineText)] := by
      rw [List.replicate_succ', List.append_assoc]
      rfl
    have step := ih (k + 1) acc h1 h2 h3
    simp +decide [measureLoop, measureStep, hget, htake, hdrop, hacc, h1, h2, h3,
      (show cfgBreakX.whiteSpace = WhiteSpace.normal from rfl),
      (show cfgBreakX.isBreakWord = true from rfl),
      (show cfgBreakX.hasImage ("X") = false from rfl),
      (show cfgBreakX.segmentG ("X") = ["X"] from rfl),
      (show engWide.measure ("X") = 2 from rfl),
      shouldKeepLinebreak, shouldCollapseWhitespace,
      jsIncludes, inlineTextIndexZero, measureTotal, hshape, step]

/-- C2: the claim states that the measurement callback terminates for every
word sequence and width, with a single oversized grapheme placed on a line
and allowed to overflow.  In break-word mode a single grapheme X of width 2
measured at available width 1 never terminates: lines 335-353 splice X into
an empty placeholder plus X itself, the continue (with the i++ of the for
header) resumes after the placeholder at X again with a still-empty line,
and the splice repeats forever, growing the word list by one empty token per
iteration.  The model reports fuel exhaustion for every fuel bound. -/
theorem c2_breakword_single_oversized_grapheme_diverges (fuel : Nat) :
    measureRun engWide cfgBreakX fuel [⟨"X", none⟩] 1 = none := by
  have h := c2_loop_stuck fuel 0 initialMeasureAcc rfl rfl rfl
  simp only [List.replicate, List.nil_append] at h
  simp [measureRun, h]

/-- Exhausting more fuel cannot change a completed measurement-loop run. -/
theorem measureLoop_fuel_succ (eng : Engine) (cfg : Config) (width : ℚ) (fuel : Nat) :
    ∀ (words : List InlineText) (i : Nat) (acc : MeasureAcc)
      (r : List InlineText × MeasureAcc),
      measureLoop eng cfg width fuel words i acc = some r →
      measureLoop eng cfg width (fuel + 1) words i acc = some r := by
  induction fuel with
  | zero =>
    intro words i acc r h
    exact absurd h (by simp [measureLoop])
  | succ f ih =>
    intro words i acc r h
    cases hstep : measureStep eng cfg width words i acc with
    | done =>
      simp only [measureLoop, hstep] at h ⊢
      exact h
    | next w2 i2 a2 =>
      simp only [measureLoop, hstep] at h ⊢
      exact ih w2 i2 a2 r h

/-- Fuel monotonicity of the measurement loop. -/
theorem measureLoop_fuel_le (eng : Engine) (cfg : Config) (width : ℚ)
    {fuel fuel' : Nat} (hle : fuel ≤ fuel')
    (words : List InlineText) (i : Nat) (acc : MeasureAcc)
    (r : List InlineText × MeasureAcc)
    (h : measureLoop eng cfg width fuel words i acc = some r) :
    measureLoop eng cfg width fuel' words i acc = some r := by
  induction hle with
  | refl => exact h
  | step _ ih => exact measureLoop_fuel_succ eng cfg width _ words i acc r ih

/-- Completed measurement runs agree regardless of the fuel bound: the run
is a function of the word list and the candidate width. -/
theorem measureRun_agree (eng : Engine) (cfg : Config)
    {fuel fuel' : Nat} {words : List InlineText} {width : ℚ}
    {r r' : List InlineText × MeasureAcc}
    (h : measureRun eng cfg fuel words width = some r)
    (h' : measureRun eng cfg fuel' words width = some r') : r = r' := by
  unfold measureRun at h h'
  obtain ⟨p, hp, hpr⟩ := Option.map_eq_some'.mp h
  obtain ⟨q, hq, hqr⟩ := Option.map_eq_some'.mp h'
  rcases le_total fuel fuel' with hle | hle
  · have hmono := measureLoop_fuel_le eng cfg width hle words 0 initialMeasureAcc p hp
    rw [hmono] at hq
    injection hq with h2
    subst h2
    rw [← hpr, ← hqr]
  · have hmono := measureLoop_fuel_le eng cfg width hle words 0 initialMeasureAcc q hq
    rw [hmono] at hp
    injection hp with h2
    subst h2
    rw [← hpr, ← hqr]

/-- C8: the claim states that calling the measurement callback twice with
the same availableWidth, with the word sequence unchanged between the calls,
returns an identical width/height pair both times.  The returned record is a
function of the word list and the width alone: the arrays carried between the
calls (appended baselines, previous positions and line widths) are written
but never read by the loop.  So whenever the first call left the word
sequence unchanged (i.e. no break-word splice occurred), the second call at
the same width returns the same result, for any engine, configuration and
fuel bounds. -/
theorem c8_measure_repeat_deterministic (eng : Engine) (cfg : Config)
    (fuel fuel' : Nat) (st : TextState) (width : ℚ)
    (p1 p2 : TextState × MeasureResult)
    (h1 : measureCall eng cfg fuel st width = some p1)
    (hWords : p1.1.words = st.words)
    (h2 : measureCall eng cfg fuel' p1.1 width = some p2) :
    p2.2 = p1.2 := by
  unfold measureCall at h1 h2
  obtain ⟨r1, hr1, hp1⟩ := Option.map_eq_some'.mp h1
  obtain ⟨r2, hr2, hp2⟩ := Option.map_eq_some'.mp h2
  rw [hWords] at hr2
  obtain rfl := measureRun_agree eng cfg hr1 hr2
  rw [← hp1, ← hp2]

/-- First measurement call of the witness scenario (single word a at width
10) completes. -/
theorem c8_first_call_isSome :
    (measureCall engUnit cfgNormal 3 (freshState [⟨"a", none⟩]) 10).isSome = true := by
  simp +decide [measureCall, measureRun, measureLoop, measureStep, finalFlush,
    initialMeasureAcc, measureTotal, engUnit, cfgNormal, freshState, shouldKeepLinebreak,
    shouldCollapseWhitespace, jsIncludes, inlineTextIndexZero, jsStringIndexOf,
    closingPunctuation, wordSeparators, bumpLast]

/-- Outcome of the first witness call. -/
def c8FirstCall : TextState × MeasureResult :=
  (measureCall engUnit cfgNormal 3 (freshState [⟨"a", none⟩]) 10).get c8_first_call_isSome

/-- The first witness call leaves the word sequence unchanged. -/
theorem c8_first_call_words : c8FirstCall.1.words = [⟨"a", none⟩] := by
  simp +decide [c8FirstCall, measureCall, measureRun, measureLoop, measureStep, finalFlush,
    initialMeasureAcc, measureTotal, engUnit, cfgNormal, freshState, shouldKeepLinebreak,
    shouldCollapseWhitespace, jsIncludes, inlineTextIndexZero, jsStringIndexOf,
    closingPunctuation, wordSeparators, bumpLast, Option.get_some]

/-- Second measurement call of the witness scenario completes as well. -/
theorem c8_second_call_isSome :
    (measureCall engUnit cfgNormal 3 c8FirstCall.1 10).isSome = true := by
  simp +decide [measureCall, measureRun, measureLoop, measureStep, finalFlush,
    initialMeasureAcc, measureTotal, engUnit, cfgNormal, shouldKeepLinebreak,
    shouldCollapseWhitespace, jsIncludes, inlineTextIndexZero, jsStringIndexOf,
    closingPunctuation, wordSeparators, bumpLast, c8_first_call_words]

/-- C8 witness: the deterministic-repeat theorem applied at the concrete
single-word input, both calls at width 10. -/
theorem c8_measure_repeat_deterministic_witness :
    ((measureCall engUnit cfgNormal 3 c8FirstCall.1 10).get c8_second_call_isSome).2 =
      c8FirstCall.2 :=
  c8_measure_repeat_deterministic engUnit cfgNormal 3 3 (freshState [⟨"a", none⟩]) 10
    c8FirstCall ((measureCall engUnit cfgNormal 3 c8FirstCall.1 10).get c8_second_call_isSome)
    (Option.some_get c8_first_call_isSome).symm c8_first_call_words
    (Option.some_get c8_second_call_isSome).symm

/-- C9: the claim states that when text-align is justify and the block has
more than one line, no token on the last line is shifted by justification,
while a token on an earlier line is shifted by gutter times its
justify-gutter index, where the gutter is the remaining width divided by
(segments - 1) and is 0 when the line has at most one segment.  This is
exactly the adjustment the painter applies through `alignShift`
(lines 507-515 of the source). -/
theorem c9_justify_never_shifts_last_line (containerWidth : ℚ) (lineWidths : List ℚ)
    (lineSegmentNumber : List Int) (layout : WordPosition)
    (hmulti : 1 < lineWidths.length) :
    (layout.line = lineWidths.length - 1 →
      (alignShift TextAlign.justify containerWidth lineWidths lineSegmentNumber layout).1 =
        layout.x) ∧
    (layout.line < lineWidths.length - 1 →
      (alignShift TextAlign.justify containerWidth lineWidths lineSegmentNumber layout).1 =
        layout.x +
          (if 1 < lineSegmentNumber.getD layout.line 0 then
            (containerWidth - lineWidths.getD layout.line 0) /
              ((lineSegmentNumber.getD layout.line 0 : ℚ) - 1)
          else 0) * (layout.lineIndex : ℚ)) := by
  constructor
  · intro hlast
    simp [alignShift, hmulti, hlast]
  · intro hlt
    simp [alignShift, hmulti, hlt]

/-- C9 witness: with container width 10, line widths [5, 3] and segment
counts [2, 1], a token on the last line keeps its offset 7, and a token with
justify-gutter index 1 on the first line moves by the gutter
(10 - 5) / (2 - 1) = 5. -/
theorem c9_justify_never_shifts_last_line_witness :
    (alignShift TextAlign.justify 10 [5, 3] [2, 1] ⟨7, 0, 1, 1, 0⟩).1 = 7 ∧
      (alignShift TextAlign.justify 10 [5, 3] [2, 1] ⟨0, 0, 1, 0, 1⟩).1 = 5 := by
  constructor
  · exact (c9_justify_never_shifts_last_line 10 [5, 3] [2, 1] ⟨7, 0, 1, 1, 0⟩
      (by norm_num)).1 (by norm_num)
  · have h := (c9_justify_never_shifts_last_line 10 [5, 3] [2, 1] ⟨0, 0, 1, 0, 1⟩
      (by norm_num)).2 (by norm_num)
    rw [h]
    norm_num

end Satori
